import Mathlib

/-!
Verification of the GameTransform scene-graph component
(repository juniper-dusk/raylib-transform).

The development shallowly embeds the two revisions of GameTransform.cpp that
the repository contains:

* "Main" refers to src/src/transform/GameTransform.cpp.
* "P2"   refers to src/unnamed/part_002 (the revision that uses the
  ExtractTranslation / ExtractRotation / ExtractScale helpers and the
  direct matrix inversion in GetWorldToLocalMatrix).

Numeric model: IEEE floats are idealised as exact rationals.  The raymath
library functions used by the component (an external dependency, raylib)
are embedded from their published sources.  Square roots are modelled by
Rat.sqrt, which agrees with an exact real square root on every input that
has a rational square root; every theorem below only ever evaluates the
square-root function on such inputs (sums of squares that reduce to a
perfect square under the stated hypotheses).  The transcendental functions
sinf, cosf and acosf are passed as explicit oracle parameters; concrete
witnesses instantiate them with their exact value at the sole argument
reached by the computation.  A second scalar model (an Option type whose
none value tracks non-finite results of division by zero) is used for the
NaN-handling claim; see the section on the non-finite model below.

Matrix layout follows raymath: a 4x4 matrix is stored in fields m0..m15,
column-major, i.e. the entry in row r and column c is m(4*c + r); the
translation lives in m12, m13, m14.  raymath MatrixMultiply(left, right)
returns the matrix that applies left first and right second (in
column-vector algebra it is the product right * left).
-/

set_option maxHeartbeats 1000000
set_option maxRecDepth 8000

/-- Model of sqrtf.  Rat.sqrt returns the exact square root whenever the
argument has a rational square root (in particular on perfect squares such
as sums of squares of the rows of a scaled rotation matrix), which covers
every evaluation performed in this development; on a negative argument
sqrtf would return NaN, which the plain rational model cannot represent
(the Option-valued model below does). -/
def ratSqrt (q : ℚ) : ℚ := Rat.sqrt q

/-- Model of the raylib Vector3 struct (three floats). -/
structure Vec3 where
  x : ℚ
  y : ℚ
  z : ℚ
deriving DecidableEq, Repr

/-- Model of the raylib Quaternion struct (fields x, y, z, w). -/
structure Quat where
  x : ℚ
  y : ℚ
  z : ℚ
  w : ℚ
deriving DecidableEq, Repr

/-- Model of the RotationAxisAngle struct of GameTransform.h
(a Vector3 axis together with a float angle). -/
structure RotationAxisAngle where
  axis : Vec3
  angle : ℚ
deriving DecidableEq, Repr

/-- Model of the raylib Matrix struct: 16 floats m0..m15, column-major
(entry of row r, column c is m(4*c+r); m12, m13, m14 hold the
translation). -/
structure Mat4 where
  m0 : ℚ
  m1 : ℚ
  m2 : ℚ
  m3 : ℚ
  m4 : ℚ
  m5 : ℚ
  m6 : ℚ
  m7 : ℚ
  m8 : ℚ
  m9 : ℚ
  m10 : ℚ
  m11 : ℚ
  m12 : ℚ
  m13 : ℚ
  m14 : ℚ
  m15 : ℚ
deriving DecidableEq, Repr

/-- raymath Vector3Length: sqrtf(x*x + y*y + z*z). -/
def Vector3Length (v : Vec3) : ℚ :=
  ratSqrt (v.x * v.x + v.y * v.y + v.z * v.z)

/-- raymath Vector3Normalize: divides by the length, with the length
replaced by 1 when it is 0 (so the zero vector normalises to itself). -/
def Vector3Normalize (v : Vec3) : Vec3 :=
  let length := Vector3Length v
  let length := if length = 0 then 1 else length
  let ilength := 1 / length
  ⟨v.x * ilength, v.y * ilength, v.z * ilength⟩

/-- raymath MatrixIdentity. -/
def MatrixIdentity : Mat4 :=
  ⟨1, 0, 0, 0,
   0, 1, 0, 0,
   0, 0, 1, 0,
   0, 0, 0, 1⟩

/-- raymath MatrixScale(x, y, z): diagonal scale matrix. -/
def MatrixScale (x y z : ℚ) : Mat4 :=
  ⟨x, 0, 0, 0,
   0, y, 0, 0,
   0, 0, z, 0,
   0, 0, 0, 1⟩

/-- raymath MatrixTranslate(x, y, z): identity with translation in
m12, m13, m14. -/
def MatrixTranslate (x y z : ℚ) : Mat4 :=
  ⟨1, 0, 0, 0,
   0, 1, 0, 0,
   0, 0, 1, 0,
   x, y, z, 1⟩

/-- raymath MatrixMultiply(left, right).  The 16 dot products are
transcribed verbatim from raymath; the result applies left first and
right second. -/
def MatrixMultiply (left right : Mat4) : Mat4 :=
  ⟨left.m0 * right.m0 + left.m1 * right.m4 + left.m2 * right.m8 + left.m3 * right.m12,
   left.m0 * right.m1 + left.m1 * right.m5 + left.m2 * right.m9 + left.m3 * right.m13,
   left.m0 * right.m2 + left.m1 * right.m6 + left.m2 * right.m10 + left.m3 * right.m14,
   left.m0 * right.m3 + left.m1 * right.m7 + left.m2 * right.m11 + left.m3 * right.m15,
   left.m4 * right.m0 + left.m5 * right.m4 + left.m6 * right.m8 + left.m7 * right.m12,
   left.m4 * right.m1 + left.m5 * right.m5 + left.m6 * right.m9 + left.m7 * right.m13,
   left.m4 * right.m2 + left.m5 * right.m6 + left.m6 * right.m10 + left.m7 * right.m14,
   left.m4 * right.m3 + left.m5 * right.m7 + left.m6 * right.m11 + left.m7 * right.m15,
   left.m8 * right.m0 + left.m9 * right.m4 + left.m10 * right.m8 + left.m11 * right.m12,
   left.m8 * right.m1 + left.m9 * right.m5 + left.m10 * right.m9 + left.m11 * right.m13,
   left.m8 * right.m2 + left.m9 * right.m6 + left.m10 * right.m10 + left.m11 * right.m14,
   left.m8 * right.m3 + left.m9 * right.m7 + left.m10 * right.m11 + left.m11 * right.m15,
   left.m12 * right.m0 + left.m13 * right.m4 + left.m14 * right.m8 + left.m15 * right.m12,
   left.m12 * right.m1 + left.m13 * right.m5 + left.m14 * right.m9 + left.m15 * right.m13,
   left.m12 * right.m2 + left.m13 * right.m6 + left.m14 * right.m10 + left.m15 * right.m14,
   left.m12 * right.m3 + left.m13 * right.m7 + left.m14 * right.m11 + left.m15 * right.m15⟩

/-- Determinant expression used inside raymath MatrixInvert (the divisor
of invDet, written with the same 2x2 minors b00..b11 as the C source). -/
def MatrixDetQ (mat : Mat4) : ℚ :=
  let b00 := mat.m0 * mat.m5 - mat.m1 * mat.m4
  let b01 := mat.m0 * mat.m6 - mat.m2 * mat.m4
  let b02 := mat.m0 * mat.m7 - mat.m3 * mat.m4
  let b03 := mat.m1 * mat.m6 - mat.m2 * mat.m5
  let b04 := mat.m1 * mat.m7 - mat.m3 * mat.m5
  let b05 := mat.m2 * mat.m7 - mat.m3 * mat.m6
  let b06 := mat.m8 * mat.m13 - mat.m9 * mat.m12
  let b07 := mat.m8 * mat.m14 - mat.m10 * mat.m12
  let b08 := mat.m8 * mat.m15 - mat.m11 * mat.m12
  let b09 := mat.m9 * mat.m14 - mat.m10 * mat.m13
  let b10 := mat.m9 * mat.m15 - mat.m11 * mat.m13
  let b11 := mat.m10 * mat.m15 - mat.m11 * mat.m14
  b00 * b11 - b01 * b10 + b02 * b09 + b03 * b08 - b04 * b07 + b05 * b06

/-- raymath MatrixInvert, transcribed from the C cofactor formulas.  The
C code divides by the determinant unconditionally; when the determinant
is zero the float result has infinite or NaN entries, while this exact
model (where 1/0 = 0) returns junk zero entries — either way, not an
inverse. -/
def MatrixInvert (mat : Mat4) : Mat4 :=
  let a00 := mat.m0; let a01 := mat.m1; let a02 := mat.m2; let a03 := mat.m3
  let a10 := mat.m4; let a11 := mat.m5; let a12 := mat.m6; let a13 := mat.m7
  let a20 := mat.m8; let a21 := mat.m9; let a22 := mat.m10; let a23 := mat.m11
  let a30 := mat.m12; let a31 := mat.m13; let a32 := mat.m14; let a33 := mat.m15
  let b00 := a00 * a11 - a01 * a10
  let b01 := a00 * a12 - a02 * a10
  let b02 := a00 * a13 - a03 * a10
  let b03 := a01 * a12 - a02 * a11
  let b04 := a01 * a13 - a03 * a11
  let b05 := a02 * a13 - a03 * a12
  let b06 := a20 * a31 - a21 * a30
  let b07 := a20 * a32 - a22 * a30
  let b08 := a20 * a33 - a23 * a30
  let b09 := a21 * a32 - a22 * a31
  let b10 := a21 * a33 - a23 * a31
  let b11 := a22 * a33 - a23 * a32
  let invDet := 1 / (b00 * b11 - b01 * b10 + b02 * b09 + b03 * b08 - b04 * b07 + b05 * b06)
  ⟨(a11 * b11 - a12 * b10 + a13 * b09) * invDet,
   (-a01 * b11 + a02 * b10 - a03 * b09) * invDet,
   (a31 * b05 - a32 * b04 + a33 * b03) * invDet,
   (-a21 * b05 + a22 * b04 - a23 * b03) * invDet,
   (-a10 * b11 + a12 * b08 - a13 * b07) * invDet,
   (a00 * b11 - a02 * b08 + a03 * b07) * invDet,
   (-a30 * b05 + a32 * b02 - a33 * b01) * invDet,
   (a20 * b05 - a22 * b02 + a23 * b01) * invDet,
   (a10 * b10 - a11 * b08 + a13 * b06) * invDet,
   (-a00 * b10 + a01 * b08 - a03 * b06) * invDet,
   (a30 * b04 - a31 * b02 + a33 * b00) * invDet,
   (-a20 * b04 + a21 * b02 - a23 * b00) * invDet,
   (-a10 * b09 + a11 * b07 - a12 * b06) * invDet,
   (a00 * b09 - a01 * b07 + a02 * b06) * invDet,
   (-a30 * b03 + a31 * b01 - a32 * b00) * invDet,
   (a20 * b03 - a21 * b01 + a22 * b00) * invDet⟩

/-- raymath QuaternionLength: sqrtf of the sum of squares of the four
components. -/
def QuaternionLength (q : Quat) : ℚ :=
  ratSqrt (q.x * q.x + q.y * q.y + q.z * q.z + q.w * q.w)

/-- raymath QuaternionNormalize: divides by the length, with the length
replaced by 1 when it is 0. -/
def QuaternionNormalize (q : Quat) : Quat :=
  let length := QuaternionLength q
  let length := if length = 0 then 1 else length
  let ilength := 1 / length
  ⟨q.x * ilength, q.y * ilength, q.z * ilength, q.w * ilength⟩

/-- raymath QuaternionToMatrix: rotation matrix of a quaternion (the
matrix is exact for a unit quaternion; raymath does not normalise the
argument). -/
def QuaternionToMatrix (q : Quat) : Mat4 :=
  ⟨1 - 2 * (q.y * q.y) - 2 * (q.z * q.z),
   2 * (q.x * q.y) + 2 * (q.z * q.w),
   2 * (q.x * q.z) - 2 * (q.y * q.w),
   0,
   2 * (q.x * q.y) - 2 * (q.z * q.w),
   1 - 2 * (q.x * q.x) - 2 * (q.z * q.z),
   2 * (q.y * q.z) + 2 * (q.x * q.w),
   0,
   2 * (q.x * q.z) + 2 * (q.y * q.w),
   2 * (q.y * q.z) - 2 * (q.x * q.w),
   1 - 2 * (q.x * q.x) - 2 * (q.y * q.y),
   0,
   0, 0, 0, 1⟩

/-- raymath QuaternionFromAxisAngle.  The transcendental calls
sinf(angle) and cosf(angle) are supplied by the oracle parameters sinQ
and cosQ (exact values of the float functions at the arguments actually
reached).  The C source halves the angle only when the axis has nonzero
length, normalises the axis (the zero vector stays zero), builds
(axis*sin, cos) and normalises the result. -/
def QuaternionFromAxisAngle (sinQ cosQ : ℚ → ℚ) (axis : Vec3) (angle : ℚ) : Quat :=
  let angle := if Vector3Length axis ≠ 0 then angle * (1 / 2) else angle
  let axis := Vector3Normalize axis
  let sinres := sinQ angle
  let cosres := cosQ angle
  QuaternionNormalize ⟨axis.x * sinres, axis.y * sinres, axis.z * sinres, cosres⟩

/-- raymath QuaternionToAxisAngle (returned as a pair instead of the two
C out-parameters).  acosf is supplied by the oracle parameter acosQ.
When the denominator sqrtf(1 - w*w) is not above 1/10000 the C code
returns the arbitrary axis (1,0,0). -/
def QuaternionToAxisAngle (acosQ : ℚ → ℚ) (q : Quat) : Vec3 × ℚ :=
  let q := if 1 < |q.w| then QuaternionNormalize q else q
  let resAngle := 2 * acosQ q.w
  let den := ratSqrt (1 - q.w * q.w)
  if 1 / 10000 < den then
    (⟨q.x / den, q.y / den, q.z / den⟩, resAngle)
  else
    (⟨1, 0, 0⟩, resAngle)

/-- raymath QuaternionFromMatrix, raylib 4.x algorithm (largest-component
selection).  The exact raymath revision vendored by the repository is not
recorded in the sources, so the GameTransform embeddings below take the
quaternion-from-matrix conversion as an oracle parameter; this model is
used to instantiate that oracle in concrete witnesses, at inputs where
its value is exact. -/
def QFMModel (mat : Mat4) : Quat :=
  let fourWSquaredMinus1 := mat.m0 + mat.m5 + mat.m10
  let fourXSquaredMinus1 := mat.m0 - mat.m5 - mat.m10
  let fourYSquaredMinus1 := mat.m5 - mat.m0 - mat.m10
  let fourZSquaredMinus1 := mat.m10 - mat.m0 - mat.m5
  let bi0 : Nat := 0
  let bv0 := fourWSquaredMinus1
  let p1 := if bv0 < fourXSquaredMinus1 then (fourXSquaredMinus1, 1) else (bv0, bi0)
  let p2 := if p1.1 < fourYSquaredMinus1 then (fourYSquaredMinus1, 2) else p1
  let p3 := if p2.1 < fourZSquaredMinus1 then (fourZSquaredMinus1, 3) else p2
  let biggestVal := ratSqrt (p3.1 + 1) * (1 / 2)
  let mult := (1 / 4) / biggestVal
  match p3.2 with
  | 0 => ⟨(mat.m6 - mat.m9) * mult, (mat.m8 - mat.m2) * mult, (mat.m1 - mat.m4) * mult, biggestVal⟩
  | 1 => ⟨biggestVal, (mat.m1 + mat.m4) * mult, (mat.m8 + mat.m2) * mult, (mat.m6 - mat.m9) * mult⟩
  | 2 => ⟨(mat.m1 + mat.m4) * mult, biggestVal, (mat.m6 + mat.m9) * mult, (mat.m8 - mat.m2) * mult⟩
  | _ => ⟨(mat.m8 + mat.m2) * mult, (mat.m6 + mat.m9) * mult, biggestVal, (mat.m1 - mat.m4) * mult⟩

/-- Stored state of one GameTransform node: the position, rotation and
scale members (the rotation member is the stored quaternion). -/
structure PRS where
  position : Vec3
  rotation : Quat
  scale : Vec3
deriving DecidableEq, Repr

/-- Ancestor chain of a node: the node itself paired with the list of its
proper ancestors, nearest parent first (an empty list means a root).
The parent pointers of the C++ class always trace such a finite chain. -/
def Chain := PRS × List PRS

/-- GameTransform::SetLocalRotation of the main revision: stores
QuaternionFromAxisAngle(axis, angle), the angle taken in radians, with no
further guard. -/
def setLocalRotation (sinQ cosQ : ℚ → ℚ) (r : RotationAxisAngle) : Quat :=
  QuaternionFromAxisAngle sinQ cosQ r.axis r.angle

/-- Verbose GameTransform constructor: SetLocalPosition, SetLocalRotation,
SetLocalScale with the given arguments (and a null parent). -/
def mkGameTransform (sinQ cosQ : ℚ → ℚ) (p : Vec3) (r : RotationAxisAngle) (s : Vec3) : PRS :=
  ⟨p, setLocalRotation sinQ cosQ r, s⟩

/-- Default GameTransform constructor: position (0,0,0), rotation set from
the axis-angle pair ((0,0,0), 0), and scale (0,0,0) — the constructor
passes the same origin vector to SetLocalScale that it passes to
SetLocalPosition. -/
def defaultGameTransform (sinQ cosQ : ℚ → ℚ) : PRS :=
  mkGameTransform sinQ cosQ ⟨0, 0, 0⟩ ⟨⟨0, 0, 0⟩, 0⟩ ⟨0, 0, 0⟩

/-- GameTransform::MakeLocalToParent of the main revision:
MatrixMultiply(MatrixMultiply(scale, rotation), translation), i.e. scale
first, then rotation, then translation; the stored quaternion is used as
is (no normalisation). -/
def MakeLocalToParent (n : PRS) : Mat4 :=
  let scaleMatrix := MatrixScale n.scale.x n.scale.y n.scale.z
  let rotationMatrix := QuaternionToMatrix n.rotation
  let translationMatrix := MatrixTranslate n.position.x n.position.y n.position.z
  MatrixMultiply (MatrixMultiply scaleMatrix rotationMatrix) translationMatrix

/-- GameTransform::MakeLocalToParent of the P2 revision: identical except
that the stored quaternion is normalised before conversion. -/
def MakeLocalToParentP2 (n : PRS) : Mat4 :=
  let scaleMatrix := MatrixScale n.scale.x n.scale.y n.scale.z
  let rotationMatrix := QuaternionToMatrix (QuaternionNormalize n.rotation)
  let translationMatrix := MatrixTranslate n.position.x n.position.y n.position.z
  MatrixMultiply (MatrixMultiply scaleMatrix rotationMatrix) translationMatrix

/-- GameTransform::GetLocalToWorldMatrix of the main revision:
MatrixMultiply(parent GetLocalToWorldMatrix, MakeLocalToParent) — the
parent matrix is passed as the FIRST argument, so with the raymath
convention the parent transformation is applied before the local one. -/
def ltwMainAux (n : PRS) : List PRS → Mat4
  | [] => MakeLocalToParent n
  | p :: rest => MatrixMultiply (ltwMainAux p rest) (MakeLocalToParent n)

/-- Main-revision local-to-world matrix of a chain. -/
def ltwMain (c : Chain) : Mat4 := ltwMainAux c.1 c.2

/-- GameTransform::GetLocalToWorldMatrix of the P2 revision:
MatrixMultiply(childMatrix, parentMatrix) — the local matrix is applied
first, then the parent chain. -/
def ltwP2Aux (n : PRS) : List PRS → Mat4
  | [] => MakeLocalToParentP2 n
  | p :: rest => MatrixMultiply (MakeLocalToParentP2 n) (ltwP2Aux p rest)

/-- P2-revision local-to-world matrix of a chain. -/
def ltwP2 (c : Chain) : Mat4 := ltwP2Aux c.1 c.2

/-- GameTransform::ExtractTranslation (P2 revision): the translation
entries m12, m13, m14. -/
def ExtractTranslationM (transform : Mat4) : Vec3 :=
  ⟨transform.m12, transform.m13, transform.m14⟩

/-- GameTransform::ExtractScale (P2 revision) and the identical inline
computation of the main revision: the Euclidean lengths of the three
basis columns. -/
def ExtractScaleM (transform : Mat4) : Vec3 :=
  ⟨Vector3Length ⟨transform.m0, transform.m1, transform.m2⟩,
   Vector3Length ⟨transform.m4, transform.m5, transform.m6⟩,
   Vector3Length ⟨transform.m8, transform.m9, transform.m10⟩⟩

/-- GameTransform::ExtractRotation (P2 revision) and the identical inline
rotation-matrix construction of the main revision: each basis column is
divided by its length. -/
def ExtractRotationM (transform : Mat4) : Mat4 :=
  let scale := ExtractScaleM transform
  ⟨transform.m0 / scale.x, transform.m1 / scale.x, transform.m2 / scale.x, 0,
   transform.m4 / scale.y, transform.m5 / scale.y, transform.m6 / scale.y, 0,
   transform.m8 / scale.z, transform.m9 / scale.z, transform.m10 / scale.z, 0,
   0, 0, 0, 1⟩

/-- GameTransform::GetWorldPosition of the main revision: extracts the
three column lengths of the local-to-world matrix and returns the
translation entries MULTIPLIED componentwise by them. -/
def GetWorldPositionMain (c : Chain) : Vec3 :=
  let ltwMat := ltwMain c
  let scale := ExtractScaleM ltwMat
  ⟨ltwMat.m12 * scale.x, ltwMat.m13 * scale.y, ltwMat.m14 * scale.z⟩

/-- GameTransform::GetWorldPosition of the P2 revision:
ExtractTranslation of the local-to-world matrix. -/
def GetWorldPositionP2 (c : Chain) : Vec3 :=
  ExtractTranslationM (ltwP2 c)

/-- GameTransform::GetWorldScale of the main revision. -/
def GetWorldScaleMain (c : Chain) : Vec3 :=
  ExtractScaleM (ltwMain c)

/-- GameTransform::GetWorldScale of the P2 revision. -/
def GetWorldScaleP2 (c : Chain) : Vec3 :=
  ExtractScaleM (ltwP2 c)

/-- Error taxonomy of the specification.  The P2 revision raises its
std::runtime_error (Invalid quaternion created from rotation matrix) on a
NaN quaternion; the specification names that failure
MatrixDecompositionError. -/
inductive GTError where
  | MatrixDecompositionError
deriving DecidableEq, Repr

/-- EPSILON constant of the main revision (0.005). -/
def epsilonMain : ℚ := 5 / 1000

/-- EPSILON constant of the P2 revision (0.001). -/
def epsilonP2 : ℚ := 1 / 1000

/-- Rational stand-in for the raymath float constant RAD2DEG = 180/pi
(the float value rounds 57.29578).  No theorem below depends on its
value: every statement about the function that uses it is settled in the
short-circuit or error branch, before the conversion happens. -/
def RAD2DEGQ : ℚ := 5729578 / 100000

/-- Model of isnan over the exact rational scalars: constantly false (a
rational value is never NaN).  The Option-valued scalar model defined
later gives the test its real meaning; this embedding keeps the source
structure visible in the rational model. -/
def isnanQ (_ : ℚ) : Bool := false

/-- Rotation matrix built inline by the main-revision GetWorldRotation:
each basis column of the local-to-world matrix divided by its length
(the same computation as ExtractRotation of the P2 revision). -/
def mainRotationMatrix (c : Chain) : Mat4 :=
  ExtractRotationM (ltwMain c)

/-- GameTransform::GetWorldRotation of the main revision: builds the
column-normalised rotation matrix, converts it to a quaternion (the
external raymath QuaternionFromMatrix, taken as the oracle QFM), returns
the identity axis-angle when sqrtf(1 - w*w) < EPSILON, and otherwise the
axis-angle of the quaternion.  There is no NaN check anywhere in this
revision. -/
def GetWorldRotationMain (QFM : Mat4 → Quat) (acosQ : ℚ → ℚ) (c : Chain) :
    RotationAxisAngle :=
  let rotationQuat := QFM (mainRotationMatrix c)
  if ratSqrt (1 - rotationQuat.w * rotationQuat.w) < epsilonMain then
    ⟨⟨0, 0, 0⟩, 0⟩
  else
    let r := QuaternionToAxisAngle acosQ rotationQuat
    ⟨r.1, r.2⟩

/-- Angle test of the P2-revision GetWorldRotation:
acos((m0 + m5 + m10 - 1) / 2) of the extracted rotation matrix. -/
def matrixAngleP2 (acosQ : ℚ → ℚ) (rotationMatrix : Mat4) : ℚ :=
  acosQ ((rotationMatrix.m0 + rotationMatrix.m5 + rotationMatrix.m10 - 1) / 2)

/-- GameTransform::GetWorldRotation of the P2 revision: extracts the
rotation matrix, short-circuits to the identity axis-angle when the
matrix angle is within EPSILON of zero, converts to a quaternion
(oracle QFM), throws (models the std::runtime_error) when any quaternion
component is NaN, and otherwise returns the axis-angle with the angle
converted to degrees (RAD2DEG).  In this exact rational model no value is
NaN, so the isnan test is constantly false here; the Option-valued model
below makes it meaningful. -/
def GetWorldRotationP2 (QFM : Mat4 → Quat) (acosQ : ℚ → ℚ) (c : Chain) :
    Except GTError RotationAxisAngle :=
  let rotationMatrix := ExtractRotationM (ltwP2 c)
  let matrixAngle := matrixAngleP2 acosQ rotationMatrix
  if matrixAngle ≤ epsilonP2 ∧ -epsilonP2 ≤ matrixAngle then
    Except.ok ⟨⟨0, 0, 0⟩, 0⟩
  else
    let rotationQuat := QFM rotationMatrix
    if isnanQ rotationQuat.w || isnanQ rotationQuat.x ||
        isnanQ rotationQuat.y || isnanQ rotationQuat.z then
      Except.error GTError.MatrixDecompositionError
    else
      let r := QuaternionToAxisAngle acosQ rotationQuat
      Except.ok ⟨r.1, r.2 * RAD2DEGQ⟩

/-- GameTransform::MakeParentToLocal (both revisions):
MatrixInvert(MakeLocalToParent()). -/
def MakeParentToLocal (n : PRS) : Mat4 :=
  MatrixInvert (MakeLocalToParent n)

/-- GameTransform::GetWorldToLocalMatrix of the P2 revision:
MatrixInvert(GetLocalToWorldMatrix()), with no singularity check and no
error path — the return type is a plain matrix. -/
def w2lP2 (c : Chain) : Mat4 :=
  MatrixInvert (ltwP2 c)

/-- GameTransform::GetWorldToLocalMatrix of the main revision.  For a
node with a parent the C source returns
MatrixMultiply(parent->MakeParentToLocal(), GetWorldToLocalMatrix()):
the recursive call is on the SAME receiver with the same parent, so the
recursion never reaches the base case.  The embedding makes the
non-termination explicit with a fuel parameter: none models the call
that never returns (in C++, unbounded recursion and a crash). -/
def w2lMainFuel : Nat → PRS → List PRS → Option Mat4
  | _, n, [] => some (MakeParentToLocal n)
  | 0, _, _ :: _ => none
  | fuel + 1, n, p :: rest =>
      (w2lMainFuel fuel n (p :: rest)).map
        (fun m => MatrixMultiply (MakeParentToLocal p) m)

/-- Oracle value of sinf at the only argument the concrete scenarios
reach, namely 0: sinf 0 = 0 exactly in IEEE arithmetic. -/
def sinfAtZero : ℚ → ℚ := fun _ => 0

/-- Oracle value of cosf at the only argument the concrete scenarios
reach, namely 0: cosf 0 = 1 exactly in IEEE arithmetic. -/
def cosfAtZero : ℚ → ℚ := fun _ => 1

/-- Oracle value of acosf at the only argument the concrete witnesses
reach, namely 1: acosf 1 = 0 exactly. -/
def acosAtOne : ℚ → ℚ := fun _ => 0

/-- Node A of the concrete two-level scenario of the specification:
identity PRS (zero position, zero rotation, unit scale). -/
def nodeA : PRS :=
  mkGameTransform sinfAtZero cosfAtZero ⟨0, 0, 0⟩ ⟨⟨0, 0, 0⟩, 0⟩ ⟨1, 1, 1⟩

/-- Node B of the concrete scenario: local position (1,1,1), identity
rotation, scale (2,2,2), parented to A. -/
def nodeB : PRS :=
  mkGameTransform sinfAtZero cosfAtZero ⟨1, 1, 1⟩ ⟨⟨0, 0, 0⟩, 0⟩ ⟨2, 2, 2⟩

/-- Node C of the concrete scenario: local position (1,1,1), identity
rotation, scale (1,1,1), parented to B. -/
def nodeC : PRS :=
  mkGameTransform sinfAtZero cosfAtZero ⟨1, 1, 1⟩ ⟨⟨0, 0, 0⟩, 0⟩ ⟨1, 1, 1⟩

/-- Ancestor chain of node B: parent A. -/
def chainB : Chain := (nodeB, [nodeA])

/-- Ancestor chain of node C: parent B, grandparent A. -/
def chainC : Chain := (nodeC, [nodeB, nodeA])

/-- Root chain of node A alone (identity PRS). -/
def chainA : Chain := (nodeA, [])

/-- Root node with the singular scale (0,1,1) of the singular-scale
scenario (zero position, identity rotation). -/
def nodeSing : PRS :=
  mkGameTransform sinfAtZero cosfAtZero ⟨0, 0, 0⟩ ⟨⟨0, 0, 0⟩, 0⟩ ⟨0, 1, 1⟩

/-- Root chain of the singular-scale node. -/
def chainSing : Chain := (nodeSing, [])

/-- Hierarchy state of one node: the parent pointer (none = root) and the
ordered std::list of children pointers.  Nodes are identified by natural
number ids. -/
structure HNode where
  parent : Option Nat
  children : List Nat
deriving DecidableEq, Repr

/-- Hierarchy state of the whole scene: the node record of every id. -/
def HWorld := Nat → HNode

/-- Pointwise update of one node record. -/
def hUpdate (w : HWorld) (i : Nat) (n : HNode) : HWorld :=
  fun j => if j = i then n else w j

/-- First phase of GameTransform::SetParent:
if (parent) parent->children.remove(this).  std::list::remove erases
every element equal to the argument. -/
def hDetach (w : HWorld) (self : Nat) : HWorld :=
  match (w self).parent with
  | some p => hUpdate w p ⟨(w p).parent, ((w p).children).filter (fun c => c ≠ self)⟩
  | none => w

/-- GameTransform::SetParent(nullptr): detach from the current parent and
null the parent pointer (the insertion branch is skipped).  This branch
of SetParent is free of the iterator defect modelled below. -/
def hSetParentNone (w : HWorld) (self : Nat) : HWorld :=
  let w1 := hDetach w self
  hUpdate w1 self ⟨none, (w1 self).children⟩

/-- Insertion of an element before position i of a list (the effect of
std::list::insert at an iterator advanced i times from begin(), when that
iterator is valid for the list). -/
def listInsertAt (l : List Nat) (i : Nat) (a : Nat) : List Nat :=
  List.take i l ++ a :: List.drop i l

/-- GameTransform::SetParent(newParent, childIndex), all revisions.  The
C source takes iterator = children.begin() — an iterator into the
children list of THIS node — advances it childIndex times and passes it
to parent->children.insert.  std::advance beyond end() and
std::list::insert with an iterator of a different list are both undefined
behaviour, so the insertion is well defined only when the new parent IS
this node and childIndex does not exceed the length of its children
list; the embedding returns none (undefined) otherwise. -/
def hSetParent (w : HWorld) (self : Nat) (newParent : Option Nat) (childIndex : Nat) :
    Option HWorld :=
  let w1 := hDetach w self
  let w2 := hUpdate w1 self ⟨newParent, (w1 self).children⟩
  match newParent with
  | none => some w2
  | some np =>
      if np = self ∧ childIndex ≤ ((w2 self).children).length then
        some (hUpdate w2 np ⟨(w2 np).parent, listInsertAt ((w2 np).children) childIndex self⟩)
      else
        none

/-- Loop of the GameTransform destructor:
for (child : children) child->SetParent(nullptr).  The range-for walks
the live std::list of the dying node.  When the visited child names the
dying node as its parent — the normal, coherent case — the body runs
parent->children.remove(this) on that very list, erasing (and freeing)
exactly the node the loop iterator is standing on; the subsequent
iterator increment is undefined behaviour (with libstdc++ the freed
node is recycled by the allocator, so the traversal does not in fact
reach the next child).  The embedding returns none (undefined) at that
point, exactly as the SetParent embedding does for its foreign-iterator
insert.  When the visited child does NOT name the dying node as parent,
the body touches some other list and the iterator stays valid — in that
case, and only in that case, the live list still agrees with the list
the loop started on, which is why recursing on the initial list is
faithful. -/
def hDestructorLoop (self : Nat) : HWorld → List Nat → Option HWorld
  | w, [] => some w
  | w, c :: rest =>
      if (w c).parent = some self then none
      else hDestructorLoop self (hSetParentNone w c) rest

/-- GameTransform destructor: run the children loop (undefined as soon
as it erases the list node its own iterator stands on), then, if the
node still has a parent, SetParent(nullptr) removes it from the
children collection of that parent.  That closing call erases by value
from ANOTHER list and involves no invalidated iterator, so a childless
node is destroyed cleanly; nothing else is destroyed (the child records
themselves survive). -/
def hDestroy (w : HWorld) (self : Nat) : Option HWorld :=
  match hDestructorLoop self w ((w self).children) with
  | none => none
  | some w1 =>
      match (w1 self).parent with
      | some _ => some (hSetParentNone w1 self)
      | none => some w1

/-- Scalar model that tracks non-finite float values: some q is the
finite value q, none is a non-finite value (infinity or NaN; the claims
this model serves only distinguish finite from non-finite, and every
none produced in the witnesses below arises from a genuine 0/0, i.e. a
true NaN). -/
def OQ := Option ℚ
deriving DecidableEq, Repr

instance : Add OQ := ⟨fun a b => match a, b with
  | some a, some b => some (a + b)
  | _, _ => none⟩

instance : Sub OQ := ⟨fun a b => match a, b with
  | some a, some b => some (a - b)
  | _, _ => none⟩

instance : Mul OQ := ⟨fun a b => match a, b with
  | some a, some b => some (a * b)
  | _, _ => none⟩

/-- Division: a finite result only when both operands are finite and the
divisor is nonzero (x/0 is infinite or NaN in IEEE arithmetic). -/
instance : Div OQ := ⟨fun a b => match a, b with
  | some a, some b => if b = 0 then none else some (a / b)
  | _, _ => none⟩

instance : Neg OQ := ⟨fun a => a.map Neg.neg⟩

instance (n : Nat) : OfNat OQ n := ⟨some (OfNat.ofNat n)⟩

/-- Injection of a finite rational value into the tracked scalars. -/
def oq (q : ℚ) : OQ := some q

/-- Model of sqrtf on the tracked scalars: NaN on a negative or
non-finite argument, otherwise ratSqrt (exact on the arguments reached
by the development). -/
def sqrtO : OQ → OQ
  | some a => if a < 0 then none else some (ratSqrt a)
  | none => none

/-- Model of fabs. -/
def fabsO : OQ → OQ := fun a => a.map abs

/-- Model of the float comparison a < b: false when either side is NaN
(IEEE comparisons with a NaN operand are false). -/
def ltO : OQ → OQ → Bool
  | some a, some b => a < b
  | _, _ => false

/-- Model of the float comparison a <= b: false on NaN. -/
def leO : OQ → OQ → Bool
  | some a, some b => a ≤ b
  | _, _ => false

/-- Model of isnan.  The model conflates infinities with NaN (both are
none); every none reaching an isnan test in the theorems below stems
from a 0/0 and is a genuine NaN in float arithmetic. -/
def isnanO (a : OQ) : Bool := a.isNone

/-- Vector of tracked scalars. -/
structure Vec3O where
  x : OQ
  y : OQ
  z : OQ
deriving DecidableEq, Repr

/-- Quaternion of tracked scalars. -/
structure QuatO where
  x : OQ
  y : OQ
  z : OQ
  w : OQ
deriving DecidableEq, Repr

/-- Axis-angle result of tracked scalars. -/
structure RotationAxisAngleO where
  axis : Vec3O
  angle : OQ
deriving DecidableEq, Repr

/-- Matrix of tracked scalars (same layout as Mat4). -/
structure Mat4O where
  m0 : OQ
  m1 : OQ
  m2 : OQ
  m3 : OQ
  m4 : OQ
  m5 : OQ
  m6 : OQ
  m7 : OQ
  m8 : OQ
  m9 : OQ
  m10 : OQ
  m11 : OQ
  m12 : OQ
  m13 : OQ
  m14 : OQ
  m15 : OQ
deriving DecidableEq, Repr

/-- True when some quaternion component is non-finite. -/
def anyNaNQuatO (q : QuatO) : Bool :=
  isnanO q.w || isnanO q.x || isnanO q.y || isnanO q.z

/-- raymath Vector3Length over tracked scalars. -/
def Vector3LengthO (v : Vec3O) : OQ :=
  sqrtO (v.x * v.x + v.y * v.y + v.z * v.z)

/-- raymath QuaternionLength over tracked scalars. -/
def QuaternionLengthO (q : QuatO) : OQ :=
  sqrtO (q.x * q.x + q.y * q.y + q.z * q.z + q.w * q.w)

/-- raymath QuaternionNormalize over tracked scalars. -/
def QuaternionNormalizeO (q : QuatO) : QuatO :=
  let length := QuaternionLengthO q
  let length := if length = (0 : OQ) then (1 : OQ) else length
  let ilength := (1 : OQ) / length
  ⟨q.x * ilength, q.y * ilength, q.z * ilength, q.w * ilength⟩

/-- raymath MatrixScale over tracked scalars. -/
def MatrixScaleO (x y z : OQ) : Mat4O :=
  ⟨x, 0, 0, 0,
   0, y, 0, 0,
   0, 0, z, 0,
   0, 0, 0, 1⟩

/-- raymath MatrixTranslate over tracked scalars. -/
def MatrixTranslateO (x y z : OQ) : Mat4O :=
  ⟨1, 0, 0, 0,
   0, 1, 0, 0,
   0, 0, 1, 0,
   x, y, z, 1⟩

/-- raymath MatrixMultiply over tracked scalars (same 16 dot products). -/
def MatrixMultiplyO (left right : Mat4O) : Mat4O :=
  ⟨left.m0 * right.m0 + left.m1 * right.m4 + left.m2 * right.m8 + left.m3 * right.m12,
   left.m0 * right.m1 + left.m1 * right.m5 + left.m2 * right.m9 + left.m3 * right.m13,
   left.m0 * right.m2 + left.m1 * right.m6 + left.m2 * right.m10 + left.m3 * right.m14,
   left.m0 * right.m3 + left.m1 * right.m7 + left.m2 * right.m11 + left.m3 * right.m15,
   left.m4 * right.m0 + left.m5 * right.m4 + left.m6 * right.m8 + left.m7 * right.m12,
   left.m4 * right.m1 + left.m5 * right.m5 + left.m6 * right.m9 + left.m7 * right.m13,
   left.m4 * right.m2 + left.m5 * right.m6 + left.m6 * right.m10 + left.m7 * right.m14,
   left.m4 * right.m3 + left.m5 * right.m7 + left.m6 * right.m11 + left.m7 * right.m15,
   left.m8 * right.m0 + left.m9 * right.m4 + left.m10 * right.m8 + left.m11 * right.m12,
   left.m8 * right.m1 + left.m9 * right.m5 + left.m10 * right.m9 + left.m11 * right.m13,
   left.m8 * right.m2 + left.m9 * right.m6 + left.m10 * right.m10 + left.m11 * right.m14,
   left.m8 * right.m3 + left.m9 * right.m7 + left.m10 * right.m11 + left.m11 * right.m15,
   left.m12 * right.m0 + left.m13 * right.m4 + left.m14 * right.m8 + left.m15 * right.m12,
   left.m12 * right.m1 + left.m13 * right.m5 + left.m14 * right.m9 + left.m15 * right.m13,
   left.m12 * right.m2 + left.m13 * right.m6 + left.m14 * right.m10 + left.m15 * right.m14,
   left.m12 * right.m3 + left.m13 * right.m7 + left.m14 * right.m11 + left.m15 * right.m15⟩

/-- raymath QuaternionToMatrix over tracked scalars. -/
def QuaternionToMatrixO (q : QuatO) : Mat4O :=
  ⟨1 - 2 * (q.y * q.y) - 2 * (q.z * q.z),
   2 * (q.x * q.y) + 2 * (q.z * q.w),
   2 * (q.x * q.z) - 2 * (q.y * q.w),
   0,
   2 * (q.x * q.y) - 2 * (q.z * q.w),
   1 - 2 * (q.x * q.x) - 2 * (q.z * q.z),
   2 * (q.y * q.z) + 2 * (q.x * q.w),
   0,
   2 * (q.x * q.z) + 2 * (q.y * q.w),
   2 * (q.y * q.z) - 2 * (q.x * q.w),
   1 - 2 * (q.x * q.x) - 2 * (q.y * q.y),
   0,
   0, 0, 0, 1⟩

/-- Stored node state over tracked scalars. -/
structure PRSO where
  position : Vec3O
  rotation : QuatO
  scale : Vec3O
deriving DecidableEq, Repr

/-- Ancestor chain over tracked scalars. -/
def ChainO := PRSO × List PRSO

/-- MakeLocalToParent of the main revision over tracked scalars. -/
def MakeLocalToParentMainO (n : PRSO) : Mat4O :=
  let scaleMatrix := MatrixScaleO n.scale.x n.scale.y n.scale.z
  let rotationMatrix := QuaternionToMatrixO n.rotation
  let translationMatrix := MatrixTranslateO n.position.x n.position.y n.position.z
  MatrixMultiplyO (MatrixMultiplyO scaleMatrix rotationMatrix) translationMatrix

/-- MakeLocalToParent of the P2 revision over tracked scalars (the
stored quaternion is normalised first). -/
def MakeLocalToParentP2O (n : PRSO) : Mat4O :=
  let scaleMatrix := MatrixScaleO n.scale.x n.scale.y n.scale.z
  let rotationMatrix := QuaternionToMatrixO (QuaternionNormalizeO n.rotation)
  let translationMatrix := MatrixTranslateO n.position.x n.position.y n.position.z
  MatrixMultiplyO (MatrixMultiplyO scaleMatrix rotationMatrix) translationMatrix

/-- GetLocalToWorldMatrix of the main revision over tracked scalars. -/
def ltwMainAuxO (n : PRSO) : List PRSO → Mat4O
  | [] => MakeLocalToParentMainO n
  | p :: rest => MatrixMultiplyO (ltwMainAuxO p rest) (MakeLocalToParentMainO n)

/-- Main-revision local-to-world matrix of a chain, tracked scalars. -/
def ltwMainO (c : ChainO) : Mat4O := ltwMainAuxO c.1 c.2

/-- GetLocalToWorldMatrix of the P2 revision over tracked scalars. -/
def ltwP2AuxO (n : PRSO) : List PRSO → Mat4O
  | [] => MakeLocalToParentP2O n
  | p :: rest => MatrixMultiplyO (MakeLocalToParentP2O n) (ltwP2AuxO p rest)

/-- P2-revision local-to-world matrix of a chain, tracked scalars. -/
def ltwP2O (c : ChainO) : Mat4O := ltwP2AuxO c.1 c.2

/-- ExtractScale over tracked scalars. -/
def ExtractScaleO (transform : Mat4O) : Vec3O :=
  ⟨Vector3LengthO ⟨transform.m0, transform.m1, transform.m2⟩,
   Vector3LengthO ⟨transform.m4, transform.m5, transform.m6⟩,
   Vector3LengthO ⟨transform.m8, transform.m9, transform.m10⟩⟩

/-- ExtractRotation over tracked scalars: each basis column of the matrix
divided by its length; a zero column length makes the whole column NaN
(0/0), exactly as in float arithmetic. -/
def ExtractRotationO (transform : Mat4O) : Mat4O :=
  let scale := ExtractScaleO transform
  ⟨transform.m0 / scale.x, transform.m1 / scale.x, transform.m2 / scale.x, 0,
   transform.m4 / scale.y, transform.m5 / scale.y, transform.m6 / scale.y, 0,
   transform.m8 / scale.z, transform.m9 / scale.z, transform.m10 / scale.z, 0,
   0, 0, 0, 1⟩

/-- raymath QuaternionToAxisAngle over tracked scalars, with the acosf
oracle. -/
def QuaternionToAxisAngleO (acosO : OQ → OQ) (q : QuatO) : Vec3O × OQ :=
  let q := if ltO (1 : OQ) (fabsO q.w) then QuaternionNormalizeO q else q
  let resAngle := (2 : OQ) * acosO q.w
  let den := sqrtO ((1 : OQ) - q.w * q.w)
  if ltO ((1 : OQ) / (10000 : OQ)) den then
    (⟨q.x / den, q.y / den, q.z / den⟩, resAngle)
  else
    (⟨1, 0, 0⟩, resAngle)

/-- GetWorldRotation of the main revision over tracked scalars: no NaN
test exists in this revision; whatever the axis-angle conversion yields
is returned to the caller. -/
def GetWorldRotationMainO (QFM : Mat4O → QuatO) (acosO : OQ → OQ) (c : ChainO) :
    RotationAxisAngleO :=
  let rotationQuat := QFM (ExtractRotationO (ltwMainO c))
  if ltO (sqrtO ((1 : OQ) - rotationQuat.w * rotationQuat.w)) (oq epsilonMain) then
    ⟨⟨0, 0, 0⟩, 0⟩
  else
    let r := QuaternionToAxisAngleO acosO rotationQuat
    ⟨r.1, r.2⟩

/-- Angle test of the P2-revision GetWorldRotation over tracked
scalars. -/
def matrixAngleP2O (acosO : OQ → OQ) (rotationMatrix : Mat4O) : OQ :=
  acosO ((rotationMatrix.m0 + rotationMatrix.m5 + rotationMatrix.m10 - 1) / 2)

/-- Guard condition of the P2-revision GetWorldRotation:
matrixAngle <= EPSILON && matrixAngle >= -EPSILON (both comparisons are
false when the angle is NaN). -/
def p2GuardFires (acosO : OQ → OQ) (rotationMatrix : Mat4O) : Bool :=
  let matrixAngle := matrixAngleP2O acosO rotationMatrix
  leO matrixAngle (oq epsilonP2) && leO (-(oq epsilonP2)) matrixAngle

/-- GetWorldRotation of the P2 revision over tracked scalars: the isnan
test on the four quaternion components throws the
std::runtime_error (MatrixDecompositionError of the specification)
instead of returning the non-finite result. -/
def GetWorldRotationP2O (QFM : Mat4O → QuatO) (acosO : OQ → OQ) (c : ChainO) :
    Except GTError RotationAxisAngleO :=
  let rotationMatrix := ExtractRotationO (ltwP2O c)
  if p2GuardFires acosO rotationMatrix then
    Except.ok ⟨⟨0, 0, 0⟩, 0⟩
  else
    let rotationQuat := QFM rotationMatrix
    if isnanO rotationQuat.w || isnanO rotationQuat.x ||
        isnanO rotationQuat.y || isnanO rotationQuat.z then
      Except.error GTError.MatrixDecompositionError
    else
      let r := QuaternionToAxisAngleO acosO rotationQuat
      Except.ok ⟨r.1, r.2 * oq RAD2DEGQ⟩

/-- raymath QuaternionFromMatrix (raylib 4.x algorithm) over tracked
scalars; used to instantiate the quaternion-from-matrix oracle in the
concrete non-finite scenarios.  Every branch propagates a NaN input to
all four output components, which holds of the published algorithm in
every raylib revision. -/
def QFMModelO (mat : Mat4O) : QuatO :=
  let fourWSquaredMinus1 := mat.m0 + mat.m5 + mat.m10
  let fourXSquaredMinus1 := mat.m0 - mat.m5 - mat.m10
  let fourYSquaredMinus1 := mat.m5 - mat.m0 - mat.m10
  let fourZSquaredMinus1 := mat.m10 - mat.m0 - mat.m5
  let bi0 : Nat := 0
  let bv0 := fourWSquaredMinus1
  let p1 := if ltO bv0 fourXSquaredMinus1 then (fourXSquaredMinus1, 1) else (bv0, bi0)
  let p2 := if ltO p1.1 fourYSquaredMinus1 then (fourYSquaredMinus1, 2) else p1
  let p3 := if ltO p2.1 fourZSquaredMinus1 then (fourZSquaredMinus1, 3) else p2
  let biggestVal := sqrtO (p3.1 + 1) * ((1 : OQ) / (2 : OQ))
  let mult := ((1 : OQ) / (4 : OQ)) / biggestVal
  match p3.2 with
  | 0 => ⟨(mat.m6 - mat.m9) * mult, (mat.m8 - mat.m2) * mult, (mat.m1 - mat.m4) * mult, biggestVal⟩
  | 1 => ⟨biggestVal, (mat.m1 + mat.m4) * mult, (mat.m8 + mat.m2) * mult, (mat.m6 - mat.m9) * mult⟩
  | 2 => ⟨(mat.m1 + mat.m4) * mult, biggestVal, (mat.m6 + mat.m9) * mult, (mat.m8 - mat.m2) * mult⟩
  | _ => ⟨(mat.m8 + mat.m2) * mult, (mat.m6 + mat.m9) * mult, biggestVal, (mat.m1 - mat.m4) * mult⟩

/-- Model of acosf for the non-finite scenarios: NaN propagates to NaN
(acosf(NaN) = NaN); the finite argument 1 yields acosf 1 = 0; no other
argument is reached by the theorems that use this model (any other
finite argument is mapped to NaN here, and no statement depends on those
values). -/
def acosModelO : OQ → OQ := fun a =>
  a.bind (fun v => if v = 1 then some 0 else none)

/-- Root node with scale (0,1,1), zero position and identity rotation,
over tracked scalars (the stored rotation that the constructor writes
for the axis-angle pair ((0,0,0),0), see the identity-rotation lemmas in
the rational model). -/
def nodeSingO : PRSO :=
  ⟨⟨0, 0, 0⟩, ⟨0, 0, 0, 1⟩, ⟨0, 1, 1⟩⟩

/-- Root chain of the tracked singular-scale node. -/
def chainSingO : ChainO := (nodeSingO, [])

/-- Bridge to the Mathlib matrix type: entry (r, c) of the raymath
layout is m(4*c + r). -/
def toMat (m : Mat4) : Matrix (Fin 4) (Fin 4) ℚ :=
  !![m.m0, m.m4, m.m8, m.m12;
     m.m1, m.m5, m.m9, m.m13;
     m.m2, m.m6, m.m10, m.m14;
     m.m3, m.m7, m.m11, m.m15]

/-- Concrete hierarchy for the reparenting scenario: nodes 0 and 1 are
both fresh roots with no children. -/
def hwFresh : HWorld := fun _ => ⟨none, []⟩

/-- Concrete hierarchy for the make-root scenario: node 0 is a child of
node 1. -/
def hwChildOf1 : HWorld := fun n =>
  if n = 0 then ⟨some 1, []⟩
  else if n = 1 then ⟨none, [0]⟩
  else ⟨none, []⟩

/-- Concrete hierarchy for the destruction scenario: node 0 has parent 3
and children 1 and 2; node 3 is a root whose only child is 0. -/
def hwDestroy : HWorld := fun n =>
  if n = 0 then ⟨some 3, [1, 2]⟩
  else if n = 1 then ⟨some 0, []⟩
  else if n = 2 then ⟨some 0, []⟩
  else if n = 3 then ⟨none, [0]⟩
  else ⟨none, []⟩

/-- GameTransform::GetLocalPosition: the stored position, verbatim. -/
def GetLocalPosition (n : PRS) : Vec3 := n.position

/-- GameTransform::GetLocalScale: the stored scale, verbatim. -/
def GetLocalScale (n : PRS) : Vec3 := n.scale

/-- GameTransform::GetLocalRotation of the main revision: returns the
identity axis-angle when sqrtf(1 - w*w) < EPSILON and the axis-angle of
the stored quaternion otherwise. -/
def GetLocalRotationMain (acosQ : ℚ → ℚ) (n : PRS) : RotationAxisAngle :=
  if ratSqrt (1 - n.rotation.w * n.rotation.w) < epsilonMain then
    ⟨⟨0, 0, 0⟩, 0⟩
  else
    let r := QuaternionToAxisAngle acosQ n.rotation
    ⟨r.1, r.2⟩

/-- ratSqrt is exact on squares: the square root of s*s is the absolute
value of s. -/
theorem ratSqrt_mul_self (s : ℚ) : ratSqrt (s * s) = |s| := Rat.sqrt_eq s

/-- Helper for rewriting: a square root equals an absolute value once the
radicand is identified as a square. -/
theorem ratSqrt_eq_abs_of_sq (a s : ℚ) (hsq : a = s * s) : ratSqrt a = |s| := by
  rw [hsq]; exact ratSqrt_mul_self s

/-- QuaternionNormalize is the identity on a unit quaternion (the length
computes to exactly 1 in the rational model). -/
theorem qnorm_unit (q : Quat) (h : q.x * q.x + q.y * q.y + q.z * q.z + q.w * q.w = 1) :
    QuaternionNormalize q = q := by
  unfold QuaternionNormalize QuaternionLength
  rw [h]
  have h1 : ratSqrt 1 = 1 := by decide
  cases q
  simp [h1]

/-- Entry-level description of MakeLocalToParent: scale applied first,
then rotation, then translation; column c of the upper 3x3 block is the
c-th rotation column scaled by the c-th scale component, and the
translation entries are the stored position, untouched by scale or
rotation. -/
theorem mltp_entries (p : Vec3) (q : Quat) (s : Vec3) :
    MakeLocalToParent ⟨p, q, s⟩ =
      ⟨s.x * (1 - 2 * (q.y * q.y) - 2 * (q.z * q.z)),
       s.x * (2 * (q.x * q.y) + 2 * (q.z * q.w)),
       s.x * (2 * (q.x * q.z) - 2 * (q.y * q.w)),
       0,
       s.y * (2 * (q.x * q.y) - 2 * (q.z * q.w)),
       s.y * (1 - 2 * (q.x * q.x) - 2 * (q.z * q.z)),
       s.y * (2 * (q.y * q.z) + 2 * (q.x * q.w)),
       0,
       s.z * (2 * (q.x * q.z) + 2 * (q.y * q.w)),
       s.z * (2 * (q.y * q.z) - 2 * (q.x * q.w)),
       s.z * (1 - 2 * (q.x * q.x) - 2 * (q.y * q.y)),
       0,
       p.x, p.y, p.z, 1⟩ := by
  simp only [MakeLocalToParent, MatrixMultiply, MatrixScale, MatrixTranslate,
    QuaternionToMatrix, Mat4.mk.injEq]
  and_intros <;> ring

/-- For a unit stored quaternion the P2 local matrix (which normalises
the quaternion first) coincides with the main one. -/
theorem mltpP2_unit (p : Vec3) (q : Quat) (s : Vec3)
    (h : q.x * q.x + q.y * q.y + q.z * q.z + q.w * q.w = 1) :
    MakeLocalToParentP2 ⟨p, q, s⟩ = MakeLocalToParent ⟨p, q, s⟩ := by
  unfold MakeLocalToParentP2 MakeLocalToParent
  rw [qnorm_unit q h]

/-- Scale extraction undoes composition on a root node with a unit
stored quaternion, up to sign: each extracted component is the absolute
value of the corresponding stored scale component. -/
theorem extractScale_mltp (p : Vec3) (q : Quat) (s : Vec3)
    (h : q.x * q.x + q.y * q.y + q.z * q.z + q.w * q.w = 1) :
    ExtractScaleM (MakeLocalToParent ⟨p, q, s⟩) = ⟨|s.x|, |s.y|, |s.z|⟩ := by
  rw [mltp_entries]
  simp only [ExtractScaleM, Vector3Length, Vec3.mk.injEq]
  refine ⟨?_, ?_, ?_⟩
  · exact ratSqrt_eq_abs_of_sq _ _ (by linear_combination (s.x * s.x * (4 * (q.y * q.y + q.z * q.z))) * h)
  · exact ratSqrt_eq_abs_of_sq _ _ (by linear_combination (s.y * s.y * (4 * (q.x * q.x + q.z * q.z))) * h)
  · exact ratSqrt_eq_abs_of_sq _ _ (by linear_combination (s.z * s.z * (4 * (q.x * q.x + q.y * q.y))) * h)

/-- World scale of a root node with a unit stored quaternion, main
revision: the componentwise absolute value of the stored scale. -/
theorem getWorldScaleMain_root (p : Vec3) (q : Quat) (s : Vec3)
    (h : q.x * q.x + q.y * q.y + q.z * q.z + q.w * q.w = 1) :
    GetWorldScaleMain (⟨p, q, s⟩, []) = ⟨|s.x|, |s.y|, |s.z|⟩ := by
  show ExtractScaleM (ltwMain (⟨p, q, s⟩, [])) = _
  rw [show ltwMain (⟨p, q, s⟩, []) = MakeLocalToParent ⟨p, q, s⟩ from rfl]
  exact extractScale_mltp p q s h

/-- World position of a root node with a unit stored quaternion, main
revision: the stored position multiplied componentwise by the absolute
value of the stored scale (the translation entries get multiplied by the
extracted column lengths). -/
theorem getWorldPositionMain_root (p : Vec3) (q : Quat) (s : Vec3)
    (h : q.x * q.x + q.y * q.y + q.z * q.z + q.w * q.w = 1) :
    GetWorldPositionMain (⟨p, q, s⟩, []) = ⟨p.x * |s.x|, p.y * |s.y|, p.z * |s.z|⟩ := by
  simp only [GetWorldPositionMain]
  rw [show ltwMain (⟨p, q, s⟩, []) = MakeLocalToParent ⟨p, q, s⟩ from rfl]
  rw [extractScale_mltp p q s h, mltp_entries]

/-- World scale of a root node with a unit stored quaternion, P2
revision: same componentwise absolute value. -/
theorem getWorldScaleP2_root (p : Vec3) (q : Quat) (s : Vec3)
    (h : q.x * q.x + q.y * q.y + q.z * q.z + q.w * q.w = 1) :
    GetWorldScaleP2 (⟨p, q, s⟩, []) = ⟨|s.x|, |s.y|, |s.z|⟩ := by
  show ExtractScaleM (ltwP2 (⟨p, q, s⟩, [])) = _
  rw [show ltwP2 (⟨p, q, s⟩, []) = MakeLocalToParentP2 ⟨p, q, s⟩ from rfl,
    mltpP2_unit p q s h]
  exact extractScale_mltp p q s h

/-- World position of a root node, P2 revision: exactly the stored
position, for ANY stored scale and quaternion (the translation entries
of the composed matrix are the position, and ExtractTranslation reads
them back verbatim). -/
theorem getWorldPositionP2_root (p : Vec3) (q : Quat) (s : Vec3) :
    GetWorldPositionP2 (⟨p, q, s⟩, []) = p := by
  simp only [GetWorldPositionP2, ExtractTranslationM]
  rw [show ltwP2 (⟨p, q, s⟩, []) = MakeLocalToParentP2 ⟨p, q, s⟩ from rfl]
  simp only [MakeLocalToParentP2, MatrixMultiply, MatrixScale, MatrixTranslate,
    QuaternionToMatrix]
  cases p
  simp only [Vec3.mk.injEq]
  and_intros <;> ring

/-- C1: in the concrete scenario A (identity) <- B ((1,1,1), id, (2,2,2))
<- C ((1,1,1), id, (1,1,1)), the main revision
(src/src/transform/GameTransform.cpp) returns
B.GetWorldPosition() = (2,2,2) and C.GetWorldPosition() = (4,4,4) — not
the (1,1,1) and (3,3,3) the claim states — because it passes the parent
matrix as the first MatrixMultiply argument (applying the parent
transform before the local one) and multiplies the extracted translation
by the world scale; the world scales are (2,2,2) as claimed.  The P2
revision returns exactly the claimed values (1,1,1), (2,2,2), (3,3,3),
(2,2,2). -/
theorem c1_concrete_scenario_eval :
    GetWorldPositionMain chainB = ⟨2, 2, 2⟩ ∧
    GetWorldScaleMain chainB = ⟨2, 2, 2⟩ ∧
    GetWorldPositionMain chainC = ⟨4, 4, 4⟩ ∧
    GetWorldScaleMain chainC = ⟨2, 2, 2⟩ ∧
    GetWorldPositionP2 chainB = ⟨1, 1, 1⟩ ∧
    GetWorldScaleP2 chainB = ⟨2, 2, 2⟩ ∧
    GetWorldPositionP2 chainC = ⟨3, 3, 3⟩ ∧
    GetWorldScaleP2 chainC = ⟨2, 2, 2⟩ := by
  with_unfolding_all decide

/-- C2 counterexample: a root node with stored position (1,1,1), identity
rotation and scale (-2,2,2), as built by the verbose constructor.  The
main revision returns GetWorldPosition = (2,2,2), different from
GetLocalPosition = (1,1,1), and GetWorldScale = (2,2,2), different from
GetLocalScale = (-2,2,2): the claimed equalities fail for arbitrary
stored scale even on a root. -/
theorem c2_counterexample :
    GetWorldPositionMain
        (mkGameTransform sinfAtZero cosfAtZero ⟨1, 1, 1⟩ ⟨⟨0, 0, 0⟩, 0⟩ ⟨-2, 2, 2⟩, []) ≠
      GetLocalPosition
        (mkGameTransform sinfAtZero cosfAtZero ⟨1, 1, 1⟩ ⟨⟨0, 0, 0⟩, 0⟩ ⟨-2, 2, 2⟩) ∧
    GetWorldScaleMain
        (mkGameTransform sinfAtZero cosfAtZero ⟨1, 1, 1⟩ ⟨⟨0, 0, 0⟩, 0⟩ ⟨-2, 2, 2⟩, []) ≠
      GetLocalScale
        (mkGameTransform sinfAtZero cosfAtZero ⟨1, 1, 1⟩ ⟨⟨0, 0, 0⟩, 0⟩ ⟨-2, 2, 2⟩) := by
  with_unfolding_all decide

/-- C2 (amended): for a root node with a unit stored quaternion, the main
revision returns GetWorldScale = componentwise absolute value of the
stored scale and GetWorldPosition = stored position multiplied
componentwise by those absolute values — so both equal the local values
exactly when the stored scale is (1,1,1), and scale equality needs only
nonnegative components; the P2 revision returns GetWorldPosition =
GetLocalPosition exactly for every root, and the same absolute-value
world scale.  (The world-rotation leg depends on the sign convention of
the external raymath QuaternionFromMatrix and is not part of the amended
claim.) -/
theorem c2_root_queries_amended (p : Vec3) (q : Quat) (s : Vec3)
    (h : q.x * q.x + q.y * q.y + q.z * q.z + q.w * q.w = 1) :
    GetWorldScaleMain (⟨p, q, s⟩, []) = ⟨|s.x|, |s.y|, |s.z|⟩ ∧
    GetWorldPositionMain (⟨p, q, s⟩, []) = ⟨p.x * |s.x|, p.y * |s.y|, p.z * |s.z|⟩ ∧
    GetWorldScaleP2 (⟨p, q, s⟩, []) = ⟨|s.x|, |s.y|, |s.z|⟩ ∧
    GetWorldPositionP2 (⟨p, q, s⟩, []) = GetLocalPosition ⟨p, q, s⟩ ∧
    (s = ⟨1, 1, 1⟩ → GetWorldScaleMain (⟨p, q, s⟩, []) = GetLocalScale ⟨p, q, s⟩ ∧
      GetWorldPositionMain (⟨p, q, s⟩, []) = GetLocalPosition ⟨p, q, s⟩) := by
  refine ⟨getWorldScaleMain_root p q s h, getWorldPositionMain_root p q s h,
    getWorldScaleP2_root p q s h, getWorldPositionP2_root p q s, ?_⟩
  rintro rfl
  rw [getWorldScaleMain_root p q _ h, getWorldPositionMain_root p q _ h]
  cases p
  constructor <;> simp [GetLocalScale, GetLocalPosition]

/-- C2 witness: the amended statement evaluated at the root node with
position (1,2,3), unit quaternion (3/5,0,0,4/5) and scale (-2,3,5). -/
theorem c2_root_queries_amended_witness :
    GetWorldScaleMain ((⟨⟨1, 2, 3⟩, ⟨3/5, 0, 0, 4/5⟩, ⟨-2, 3, 5⟩⟩ : PRS), []) = ⟨2, 3, 5⟩ ∧
    GetWorldPositionMain ((⟨⟨1, 2, 3⟩, ⟨3/5, 0, 0, 4/5⟩, ⟨-2, 3, 5⟩⟩ : PRS), []) = ⟨2, 6, 15⟩ ∧
    GetWorldPositionP2 ((⟨⟨1, 2, 3⟩, ⟨3/5, 0, 0, 4/5⟩, ⟨-2, 3, 5⟩⟩ : PRS), []) = ⟨1, 2, 3⟩ := by
  have h := c2_root_queries_amended ⟨1, 2, 3⟩ ⟨3/5, 0, 0, 4/5⟩ ⟨-2, 3, 5⟩ (by norm_num)
  refine ⟨h.1.trans (by norm_num), h.2.1.trans (by norm_num), h.2.2.2.1⟩

/-- Shared helper: the raymath cofactor inverse is a genuine left
inverse whenever the determinant is nonzero (exact arithmetic). -/
theorem matrixInvert_left_inverse (m : Mat4) (h : MatrixDetQ m ≠ 0) :
    MatrixMultiply (MatrixInvert m) m = MatrixIdentity := by
  simp only [MatrixDetQ] at h
  simp only [MatrixMultiply, MatrixInvert, MatrixIdentity, Mat4.mk.injEq]
  and_intros <;> field_simp <;> ring

/-- C3: in the main revision, GetWorldToLocalMatrix of any node that has
a parent never returns: its recursive call is on the same receiver (the
C source multiplies parent->MakeParentToLocal() with a recursive call on
this, not on the parent), so no amount of fuel produces a result — the
claimed inverse law cannot even be stated for it.  In the P2 revision
(direct MatrixInvert of the composed local-to-world matrix) the inverse
law does hold: for every chain whose composed local-to-world matrix has
nonzero determinant — in particular whenever no ancestor has a singular
local matrix, since determinants are multiplicative — the product of
GetWorldToLocalMatrix with GetLocalToWorldMatrix is exactly the
identity. -/
theorem c3_world_to_local_inverse_law :
    (∀ (fuel : Nat) (n p : PRS) (rest : List PRS),
        w2lMainFuel fuel n (p :: rest) = none) ∧
    (∀ c : Chain, MatrixDetQ (ltwP2 c) ≠ 0 →
        MatrixMultiply (w2lP2 c) (ltwP2 c) = MatrixIdentity) := by
  constructor
  · intro fuel
    induction fuel with
    | zero => intro n p rest; rfl
    | succ k ih => intro n p rest; rw [w2lMainFuel, ih]; rfl
  · intro c hc
    exact matrixInvert_left_inverse (ltwP2 c) hc

/-- C3 witness: the two-level chain of node B over the identity root A
has determinant 8; the P2 inverse law holds there, and the main-revision
world-to-local computation diverges on it for any amount of fuel. -/
theorem c3_world_to_local_inverse_law_witness :
    MatrixDetQ (ltwP2 chainB) ≠ 0 ∧
    MatrixMultiply (w2lP2 chainB) (ltwP2 chainB) = MatrixIdentity ∧
    w2lMainFuel 1000 nodeB [nodeA] = none := by
  refine ⟨by with_unfolding_all decide,
    c3_world_to_local_inverse_law.2 chainB (by with_unfolding_all decide),
    c3_world_to_local_inverse_law.1 1000 nodeB nodeA []⟩

/-- C4: with the singular scale (0,1,1) on a root node, the P2
GetWorldToLocalMatrix computes MatrixInvert of a matrix whose
determinant is 0 — the cofactor formulas divide by that zero determinant
(in float arithmetic the entries become infinities and NaNs) — and still
returns a matrix: no SingularTransformError exists anywhere in the code
(the return type carries no error), and the returned matrix is not an
inverse (the product with the forward matrix differs from the
identity). -/
theorem c4_singular_scale_returns_garbage :
    MatrixDetQ (ltwP2 chainSing) = 0 ∧
    w2lP2 chainSing = MatrixInvert (ltwP2 chainSing) ∧
    MatrixMultiply (w2lP2 chainSing) (ltwP2 chainSing) ≠ MatrixIdentity := by
  refine ⟨by with_unfolding_all decide, rfl, by with_unfolding_all decide⟩

/-- C5 (amended, P2 revision): whenever the near-zero-angle guard does
not fire and the quaternion extracted from the rotation matrix has a
non-finite component, GetWorldRotation throws the
MatrixDecompositionError (the std::runtime_error of the source) instead
of returning the value. -/
theorem c5_nan_quaternion_throws_p2 (QFM : Mat4O → QuatO) (acosO : OQ → OQ) (c : ChainO)
    (hguard : p2GuardFires acosO (ExtractRotationO (ltwP2O c)) = false)
    (hnan : anyNaNQuatO (QFM (ExtractRotationO (ltwP2O c))) = true) :
    GetWorldRotationP2O QFM acosO c = Except.error GTError.MatrixDecompositionError := by
  simp only [anyNaNQuatO] at hnan
  simp only [GetWorldRotationP2O, hguard, hnan]
  simp

/-- C5 witness: the zero-scale root node.  The column of the composed
matrix scaled by 0 is normalised by a zero length, so its entries are
0/0 (NaN); the quaternion extracted by the modelled raymath conversion
is NaN in every component, the angle guard does not fire (comparisons
with NaN are false), and the P2 GetWorldRotation throws. -/
theorem c5_nan_quaternion_throws_p2_witness :
    p2GuardFires acosModelO (ExtractRotationO (ltwP2O chainSingO)) = false ∧
    anyNaNQuatO (QFMModelO (ExtractRotationO (ltwP2O chainSingO))) = true ∧
    GetWorldRotationP2O QFMModelO acosModelO chainSingO =
      Except.error GTError.MatrixDecompositionError := by
  refine ⟨by with_unfolding_all decide, by with_unfolding_all decide,
    c5_nan_quaternion_throws_p2 QFMModelO acosModelO chainSingO
      (by with_unfolding_all decide) (by with_unfolding_all decide)⟩

/-- C5 counterexample (main revision): on the same zero-scale root node
the extracted quaternion is NaN in every component, yet the main-revision
GetWorldRotation — which has no isnan test — silently returns an
axis-angle whose angle is NaN to the caller. -/
theorem c5_counterexample_main_returns_nan :
    anyNaNQuatO (QFMModelO (ExtractRotationO (ltwMainO (nodeSingO, [])))) = true ∧
    (GetWorldRotationMainO QFMModelO acosModelO (nodeSingO, [])).angle = none := by
  constructor <;> with_unfolding_all decide

/-- C6: SetParent with a non-null new parent is broken: the insertion
iterator is built from the children list of the child itself
(children.begin() advanced childIndex times) and handed to
newParent->children.insert, which is undefined behaviour for every
newParent other than the node itself — the child is never correctly
inserted into the children collection of the new parent, and childIndex
is not clamped.  On two fresh roots, SetParent(node 1, index 0) hits the
undefined insertion; the nullptr branch does work: a child of node 1
becomes a root and leaves the children collection of node 1. -/
theorem c6_setParent_insert_defect :
    hSetParent hwFresh 0 (some 1) 0 = none ∧
    (hSetParent hwChildOf1 0 none 0).map
        (fun w => ((w 0).parent, (w 1).children)) = some (none, []) := by
  exact ⟨by with_unfolding_all rfl, by with_unfolding_all rfl⟩

/-- C8: both epsilon guards short-circuit to the identity rotation.  In
the P2 revision, whenever the angle acos((trace-1)/2) of the extracted
rotation matrix lies within EPSILON = 0.001 of zero, GetWorldRotation
returns axis (0,0,0) and angle 0 without consulting the
quaternion-from-matrix conversion; in the main revision, whenever
sqrtf(1 - w*w) of the extracted quaternion (the sine of half the
rotation angle) is below EPSILON = 0.005, the same identity axis-angle
is returned. -/
theorem c8_degenerate_rotation_guard (QFM : Mat4 → Quat) (acosQ : ℚ → ℚ) (c : Chain) :
    ((matrixAngleP2 acosQ (ExtractRotationM (ltwP2 c)) ≤ epsilonP2 ∧
        -epsilonP2 ≤ matrixAngleP2 acosQ (ExtractRotationM (ltwP2 c))) →
      GetWorldRotationP2 QFM acosQ c = Except.ok ⟨⟨0, 0, 0⟩, 0⟩) ∧
    (ratSqrt (1 - (QFM (mainRotationMatrix c)).w * (QFM (mainRotationMatrix c)).w) <
        epsilonMain →
      GetWorldRotationMain QFM acosQ c = ⟨⟨0, 0, 0⟩, 0⟩) := by
  constructor
  · intro hin
    simp only [GetWorldRotationP2, if_pos hin]
  · intro hin
    simp only [GetWorldRotationMain, if_pos hin]

/-- C8 witness: the identity root node.  The extracted rotation matrix
is the identity, its trace angle is acos 1 = 0 (within 0.001), the
modelled quaternion conversion returns the identity quaternion with
sqrtf(1 - w*w) = 0 (below 0.005), and both revisions return the identity
axis-angle. -/
theorem c8_degenerate_rotation_guard_witness :
    (matrixAngleP2 acosAtOne (ExtractRotationM (ltwP2 chainA)) ≤ epsilonP2 ∧
      -epsilonP2 ≤ matrixAngleP2 acosAtOne (ExtractRotationM (ltwP2 chainA))) ∧
    ratSqrt (1 - (QFMModel (mainRotationMatrix chainA)).w *
        (QFMModel (mainRotationMatrix chainA)).w) < epsilonMain ∧
    GetWorldRotationP2 QFMModel acosAtOne chainA = Except.ok ⟨⟨0, 0, 0⟩, 0⟩ ∧
    GetWorldRotationMain QFMModel acosAtOne chainA = ⟨⟨0, 0, 0⟩, 0⟩ := by
  have h := c8_degenerate_rotation_guard QFMModel acosAtOne chainA
  refine ⟨by with_unfolding_all decide, by with_unfolding_all decide,
    h.1 (by with_unfolding_all decide), h.2 (by with_unfolding_all decide)⟩

/-- Updating a node record changes only that node. -/
theorem hUpdate_same (w : HWorld) (i : Nat) (n : HNode) : hUpdate w i n i = n := by
  simp [hUpdate]

/-- Updating a node record leaves every other node untouched. -/
theorem hUpdate_other (w : HWorld) (i : Nat) (n : HNode) (j : Nat) (h : j ≠ i) :
    hUpdate w i n j = w j := by
  simp [hUpdate, h]

/-- SetParent(nullptr) clears the parent pointer of its receiver. -/
theorem hSetParentNone_parent_self (w : HWorld) (c : Nat) :
    ((hSetParentNone w c) c).parent = none := by
  unfold hSetParentNone
  rw [hUpdate_same]

/-- SetParent(nullptr) changes no parent pointer other than that of its
receiver. -/
theorem hSetParentNone_parent_other (w : HWorld) (c n : Nat) (hn : n ≠ c) :
    ((hSetParentNone w c) n).parent = (w n).parent := by
  unfold hSetParentNone hDetach
  rw [hUpdate_other _ _ _ _ hn]
  cases hp : (w c).parent with
  | none => rfl
  | some p =>
    dsimp only
    by_cases hnp : n = p
    · subst hnp; rw [hUpdate_same]
    · rw [hUpdate_other _ _ _ _ hnp]

/-- SetParent(nullptr) touches no node record other than its receiver
and the former parent of its receiver. -/
theorem hSetParentNone_frame (w : HWorld) (c n : Nat) (hn : n ≠ c)
    (hp : (w c).parent ≠ some n) :
    (hSetParentNone w c) n = w n := by
  unfold hSetParentNone hDetach
  rw [hUpdate_other _ _ _ _ hn]
  cases hpc : (w c).parent with
  | none => rfl
  | some p =>
    dsimp only
    have hnp : n ≠ p := fun h => hp (by rw [hpc, h])
    rw [hUpdate_other _ _ _ _ hnp]

/-- SetParent(nullptr) keeps the children list of its receiver provided
the receiver is not its own parent. -/
theorem hSetParentNone_children_self (w : HWorld) (c : Nat)
    (h : (w c).parent ≠ some c) :
    ((hSetParentNone w c) c).children = (w c).children := by
  unfold hSetParentNone hDetach
  rw [hUpdate_same]
  cases hpc : (w c).parent with
  | none => rfl
  | some p =>
    dsimp only
    have hcp : c ≠ p := fun he => h (by rw [hpc, he])
    rw [hUpdate_other _ _ _ _ hcp]

/-- After SetParent(nullptr), the receiver is absent from the children
list of its former parent. -/
theorem hSetParentNone_removes (w : HWorld) (self p : Nat)
    (hp : (w self).parent = some p) :
    self ∉ ((hSetParentNone w self) p).children := by
  unfold hSetParentNone hDetach
  rw [hp]
  dsimp only
  by_cases hps : p = self
  · subst hps
    rw [hUpdate_same]
    simp [hUpdate_same]
  · rw [hUpdate_other _ _ _ _ hps, hUpdate_same]
    simp

/-- C7: the destructor does NOT definedly sever the links when children
exist.  For every hierarchy state and node whose first child names it
as parent (any coherent state with at least one child), the loop erases
the std::list node its own iterator is standing on and the destruction
is undefined behaviour before the claimed severing can complete.  The
childless half of the claim does hold, with no undefined step involved:
destroying a node with no children clears its parent pointer and
removes it from the children collection of its former parent. -/
theorem c7_destructor_iterator_ub :
    (∀ (w : HWorld) (self c : Nat) (rest : List Nat),
        (w self).children = c :: rest → (w c).parent = some self →
        hDestroy w self = none) ∧
    (∀ (w : HWorld) (self p : Nat),
        (w self).children = [] → (w self).parent = some p →
        ∃ w', hDestroy w self = some w' ∧
          (w' self).parent = none ∧ self ∉ (w' p).children) := by
  constructor
  · intro w self c rest hch hc
    unfold hDestroy
    rw [hch]
    simp only [hDestructorLoop, if_pos hc]
  · intro w self p hch hp
    unfold hDestroy
    rw [hch]
    simp only [hDestructorLoop]
    rw [hp]
    exact ⟨hSetParentNone w self, rfl,
      hSetParentNone_parent_self w self, hSetParentNone_removes w self p hp⟩

/-- C7 witness: destroying node 0 (parent 3, children 1 and 2, each
naming node 0 as parent) hits the invalidated iterator on the first
loop step; destroying the childless node 0 of the second hierarchy (a
child of node 1) completes cleanly, making it a root that is gone from
the children collection of node 1. -/
theorem c7_destructor_iterator_ub_witness :
    hDestroy hwDestroy 0 = none ∧
    ∃ w', hDestroy hwChildOf1 0 = some w' ∧
      (w' 0).parent = none ∧ 0 ∉ (w' 1).children := by
  exact ⟨c7_destructor_iterator_ub.1 hwDestroy 0 1 [2] (by decide) (by decide),
    c7_destructor_iterator_ub.2 hwChildOf1 0 1 (by decide) (by decide)⟩


/-- Shared helper: effect of SetLocalRotation on a zero-length axis.
With a zero-length axis the raymath construction stores the
normalisation of the quaternion (0, 0, 0, cosf angle) — the raymath
construction skips the halving, maps the zero axis to itself and
normalises.  The stored value is the identity quaternion exactly when
cosf of the angle is positive; when it is negative the stored value is
(0, 0, 0, -1), the negated identity (the same rotation, but not the
identity quaternion); in the float-unreachable case cosf angle = 0 the
zero quaternion is stored.  In every case a well-defined quaternion is
stored and nothing is reported to the caller. -/
theorem setLocalRotation_zero_axis (sinQ cosQ : ℚ → ℚ) (angle : ℚ) :
    setLocalRotation sinQ cosQ ⟨⟨0, 0, 0⟩, angle⟩ =
      QuaternionNormalize ⟨0, 0, 0, cosQ angle⟩ ∧
    (0 < cosQ angle → setLocalRotation sinQ cosQ ⟨⟨0, 0, 0⟩, angle⟩ = ⟨0, 0, 0, 1⟩) ∧
    (cosQ angle < 0 → setLocalRotation sinQ cosQ ⟨⟨0, 0, 0⟩, angle⟩ = ⟨0, 0, 0, -1⟩) ∧
    (cosQ angle = 0 → setLocalRotation sinQ cosQ ⟨⟨0, 0, 0⟩, angle⟩ = ⟨0, 0, 0, 0⟩) := by
  have hlen : Vector3Length ⟨0, 0, 0⟩ = 0 := by with_unfolding_all rfl
  have hmain : setLocalRotation sinQ cosQ ⟨⟨0, 0, 0⟩, angle⟩ =
      QuaternionNormalize ⟨0, 0, 0, cosQ angle⟩ := by
    simp [setLocalRotation, QuaternionFromAxisAngle, hlen, Vector3Normalize]
  have hql : QuaternionLength ⟨0, 0, 0, cosQ angle⟩ = |cosQ angle| := by
    unfold QuaternionLength
    exact ratSqrt_eq_abs_of_sq _ _ (by ring)
  refine ⟨hmain, ?_, ?_, ?_⟩
  · intro hc
    rw [hmain]
    unfold QuaternionNormalize
    rw [hql, abs_of_pos hc]
    have hne : cosQ angle ≠ 0 := ne_of_gt hc
    simp [hne, Quat.mk.injEq]
  · intro hc
    rw [hmain]
    unfold QuaternionNormalize
    rw [hql, abs_of_neg hc]
    have hne : -cosQ angle ≠ 0 := by exact neg_ne_zero.mpr (ne_of_lt hc)
    simp [hne, Quat.mk.injEq]
    field_simp
  · intro hc
    rw [hmain]
    unfold QuaternionNormalize
    rw [hql, hc]
    simp


/-- C9 (amended): SetLocalRotation with a zero-length axis and any angle
stores the normalisation of (0, 0, 0, cosf angle): the identity
quaternion exactly when cosf angle > 0, the negated identity (0,0,0,-1)
— still a representation of the identity rotation — when cosf angle < 0,
and the zero quaternion in the float-unreachable case cosf angle = 0.
In every case a well-defined quaternion is stored and no error reaches
the caller. -/
theorem c9_zero_axis_stores_normalised_cos (sinQ cosQ : ℚ → ℚ) (angle : ℚ) :
    setLocalRotation sinQ cosQ ⟨⟨0, 0, 0⟩, angle⟩ =
      QuaternionNormalize ⟨0, 0, 0, cosQ angle⟩ ∧
    (0 < cosQ angle → setLocalRotation sinQ cosQ ⟨⟨0, 0, 0⟩, angle⟩ = ⟨0, 0, 0, 1⟩) ∧
    (cosQ angle < 0 → setLocalRotation sinQ cosQ ⟨⟨0, 0, 0⟩, angle⟩ = ⟨0, 0, 0, -1⟩) ∧
    (cosQ angle = 0 → setLocalRotation sinQ cosQ ⟨⟨0, 0, 0⟩, angle⟩ = ⟨0, 0, 0, 0⟩) :=
  setLocalRotation_zero_axis sinQ cosQ angle

/-- C9 counterexample: axis (0,0,0) with the nonzero angle 3 radians.
The exact values sinf 3 and cosf 3 are irrational; the oracle stand-ins
below keep their signs (sinf 3 is about 0.141, cosf 3 about -0.99), and
the stored quaternion is (0,0,0,-1) for EVERY negative cosine value,
because the construction normalises (0,0,0,cos) by its absolute value.
The stored rotation is therefore not the identity quaternion the claim
promises. -/
theorem c9_counterexample :
    setLocalRotation (fun _ => 141 / 1000) (fun _ => -(99 / 100)) ⟨⟨0, 0, 0⟩, 3⟩ =
      ⟨0, 0, 0, -1⟩ ∧
    setLocalRotation (fun _ => 141 / 1000) (fun _ => -(99 / 100)) ⟨⟨0, 0, 0⟩, 3⟩ ≠
      ⟨0, 0, 0, 1⟩ := by
  have h := (setLocalRotation_zero_axis (fun _ => 141 / 1000) (fun _ => -(99 / 100)) 3).2.2.1
    (by norm_num)
  refine ⟨h, ?_⟩
  rw [h]
  simp [Quat.mk.injEq]
  norm_num

/-- C9 witness: with the exact oracle values of sinf and cosf at 0, a
zero-axis request with positive cosine stores the identity quaternion. -/
theorem c9_zero_axis_stores_normalised_cos_witness :
    setLocalRotation (fun _ => 0) (fun _ => 1) ⟨⟨0, 0, 0⟩, 5⟩ = ⟨0, 0, 0, 1⟩ :=
  (c9_zero_axis_stores_normalised_cos (fun _ => 0) (fun _ => 1) 5).2.1 (by norm_num)

/-- The raymath product corresponds, under the layout bridge, to the
Mathlib matrix product with the factors swapped (MatrixMultiply applies
its left argument first). -/
theorem toMat_multiply (a b : Mat4) : toMat (MatrixMultiply a b) = toMat b * toMat a := by
  ext r c
  fin_cases r <;> fin_cases c <;>
    simp [toMat, MatrixMultiply, Matrix.mul_apply, Fin.sum_univ_four] <;> ring

/-- The determinant expression of raymath MatrixInvert is the
determinant of the matrix. -/
theorem detQ_toMat (m : Mat4) : MatrixDetQ m = (toMat m).det := by
  simp [toMat, MatrixDetQ, Matrix.det_succ_row_zero, Fin.sum_univ_succ, Fin.succAbove,
    Matrix.cons_val_succ, Fin.lt_def, Fin.castSucc, Fin.castAdd, Fin.castLE]
  ring

/-- Determinants are multiplicative across raymath MatrixMultiply. -/
theorem detQ_multiply (a b : Mat4) :
    MatrixDetQ (MatrixMultiply a b) = MatrixDetQ a * MatrixDetQ b := by
  rw [detQ_toMat, detQ_toMat, detQ_toMat, toMat_multiply, Matrix.det_mul]
  ring

/-- The default constructor stores zero position, the identity
quaternion and — unlike the unit scale a caller would expect — the ZERO
scale vector, because it passes the same origin vector to SetLocalScale
that it passes to SetLocalPosition.  The oracle hypotheses pin the exact
float values sinf 0 = 0 and cosf 0 = 1. -/
theorem defaultGameTransform_eq (sinQ cosQ : ℚ → ℚ) (h0 : sinQ 0 = 0) (h1 : cosQ 0 = 1) :
    defaultGameTransform sinQ cosQ = ⟨⟨0, 0, 0⟩, ⟨0, 0, 0, 1⟩, ⟨0, 0, 0⟩⟩ := by
  have hlen : Vector3Length ⟨0, 0, 0⟩ = 0 := by with_unfolding_all rfl
  have hq1 : QuaternionNormalize ⟨0, 0, 0, 1⟩ = ⟨0, 0, 0, 1⟩ :=
    qnorm_unit ⟨0, 0, 0, 1⟩ (by norm_num)
  unfold defaultGameTransform mkGameTransform setLocalRotation QuaternionFromAxisAngle
  rw [hlen]
  simp [Vector3Normalize, hlen, h0, h1, hq1]

/-- Composing through a chain that contains a node whose local matrix is
singular yields a singular local-to-world matrix, in both revisions
(determinants are multiplicative and one factor is zero). -/
theorem det_ltw_zero_of_mem (d : PRS)
    (hd : MatrixDetQ (MakeLocalToParent d) = 0)
    (hd2 : MatrixDetQ (MakeLocalToParentP2 d) = 0) :
    ∀ (l : List PRS) (n : PRS), (n = d ∨ d ∈ l) →
      MatrixDetQ (ltwMainAux n l) = 0 ∧ MatrixDetQ (ltwP2Aux n l) = 0 := by
  intro l
  induction l with
  | nil =>
    intro n hmem
    rcases hmem with rfl | hmem
    · exact ⟨hd, hd2⟩
    · exact absurd hmem (List.not_mem_nil d)
  | cons p rest ih =>
    intro n hmem
    have hstep : MatrixDetQ (ltwMainAux n (p :: rest)) =
        MatrixDetQ (ltwMainAux p rest) * MatrixDetQ (MakeLocalToParent n) := by
      rw [show ltwMainAux n (p :: rest) =
        MatrixMultiply (ltwMainAux p rest) (MakeLocalToParent n) from rfl, detQ_multiply]
    have hstep2 : MatrixDetQ (ltwP2Aux n (p :: rest)) =
        MatrixDetQ (MakeLocalToParentP2 n) * MatrixDetQ (ltwP2Aux p rest) := by
      rw [show ltwP2Aux n (p :: rest) =
        MatrixMultiply (MakeLocalToParentP2 n) (ltwP2Aux p rest) from rfl, detQ_multiply]
    rcases hmem with rfl | hmem
    · rw [hstep, hstep2, hd, hd2]
      exact ⟨by ring, by ring⟩
    · have hrec := ih p (by
        rcases List.mem_cons.mp hmem with h | h
        · exact Or.inl h.symm
        · exact Or.inr h)
      rw [hstep, hstep2, hrec.1, hrec.2]
      exact ⟨by ring, by ring⟩

/-- C10: a default-constructed node has local position (0,0,0), the
identity rotation quaternion, and local scale (0,0,0) — the zero vector,
not unit scale — so its local-to-parent matrix has determinant zero, and
the local-to-world matrix of such a node and of every descendant of it
is singular in both revisions: every world-to-local query (which inverts
that matrix) and world-rotation query (which decomposes it) operates on
a singular matrix. -/
theorem c10_default_ctor_zero_scale (sinQ cosQ : ℚ → ℚ)
    (h0 : sinQ 0 = 0) (h1 : cosQ 0 = 1) :
    GetLocalPosition (defaultGameTransform sinQ cosQ) = ⟨0, 0, 0⟩ ∧
    (defaultGameTransform sinQ cosQ).rotation = ⟨0, 0, 0, 1⟩ ∧
    GetLocalScale (defaultGameTransform sinQ cosQ) = ⟨0, 0, 0⟩ ∧
    MatrixDetQ (MakeLocalToParent (defaultGameTransform sinQ cosQ)) = 0 ∧
    (∀ (n : PRS) (l : List PRS),
        (n = defaultGameTransform sinQ cosQ ∨ defaultGameTransform sinQ cosQ ∈ l) →
        MatrixDetQ (ltwMain (n, l)) = 0 ∧ MatrixDetQ (ltwP2 (n, l)) = 0) := by
  rw [defaultGameTransform_eq sinQ cosQ h0 h1]
  refine ⟨rfl, rfl, rfl, by with_unfolding_all decide, ?_⟩
  intro n l hmem
  exact det_ltw_zero_of_mem _ (by with_unfolding_all decide) (by with_unfolding_all decide)
    l n hmem

/-- C10 witness: with the exact oracle values at 0, the default node
itself has the zero scale and a singular local-to-world matrix. -/
theorem c10_default_ctor_zero_scale_witness :
    GetLocalScale (defaultGameTransform sinfAtZero cosfAtZero) = ⟨0, 0, 0⟩ ∧
    MatrixDetQ (ltwP2 (defaultGameTransform sinfAtZero cosfAtZero, [])) = 0 := by
  have h := c10_default_ctor_zero_scale sinfAtZero cosfAtZero rfl rfl
  exact ⟨h.2.2.1, (h.2.2.2.2 _ [] (Or.inl rfl)).2⟩
